import Mathlib

/-!
Verification of the ProbeBot trading engine.

This file shallowly embeds the core of the repository:
  * `config.js`  — symbol canonicalization (`getFullSymbol`, `getBaseToken`),
  * the trading ledger (`TradingBot`: `buy`, `sell`, `updateMonitoring`),
  * the order-execution guard (`OrderExecutor`: `executeBuy`, `executeSell`),
  * the price tracker (`MarketData`: `updatePrice`, `getPrice`),
and proves or refutes the frozen claims about it.

Modelling conventions:
  * JavaScript numbers are embedded as `ℚ` (exact arithmetic); `.toFixed`
    display rounding and `Date` timestamps are not observable by any claim
    and are elided (trade `id`/`time` fields, and the numeric interpolation
    inside human-readable `reason` strings).
  * A JavaScript `Map` is an association list with the first binding for a
    key authoritative (`mapFind` / `mapSet` / `mapDelete`); the `Set` of
    in-flight symbols is a `List String` with membership tests.
  * The `async` methods of `OrderExecutor` become pure functions taking the
    outcome of the single awaited exchange call (`ExchangeOutcome`) as an
    oracle argument — `.fault` stands for a thrown error inside the `try`
    block — and additionally report whether the exchange order-placement
    collaborator was contacted (`exchangeCalled`).
-/

namespace ProbeBot

/-! ### Association-list operations mirroring JavaScript `Map` -/

def mapFind {α : Type} (k : String) : List (String × α) → Option α
  | [] => none
  | (k', v) :: rest => if k' = k then some v else mapFind k rest

/-- `Map.prototype.set`: replace the binding if present, else append. -/
def mapSet {α : Type} (k : String) (v : α) : List (String × α) → List (String × α)
  | [] => [(k, v)]
  | (k', v') :: rest => if k' = k then (k, v) :: rest else (k', v') :: mapSet k v rest

/-- `Map.prototype.delete`: remove the binding for a key. -/
def mapDelete {α : Type} (k : String) : List (String × α) → List (String × α)
  | [] => []
  | (k', v) :: rest => if k' = k then mapDelete k rest else (k', v) :: mapDelete k rest

/-! ### `config.js`: symbol canonicalization -/

/-- `CONFIG.QUOTE_CURRENCY` in `config.js`. -/
def QUOTE_CURRENCY : String := "USDT"

/-- `getFullSymbol(token)` in `config.js`: appends the quote currency. -/
def getFullSymbol (token : String) : String := token ++ QUOTE_CURRENCY

/-- `String.prototype.replace(pat, '')` with a string pattern: remove the
first occurrence of `pat` from the character list. -/
def replaceFirstChars (pat : List Char) : List Char → List Char
  | [] => []
  | c :: rest =>
    if pat.isPrefixOf (c :: rest) then (c :: rest).drop pat.length
    else c :: replaceFirstChars pat rest

/-- `getBaseToken(symbol)` in `config.js`: `symbol.replace(QUOTE_CURRENCY, '')`,
which removes only the first occurrence of `"USDT"`. -/
def getBaseToken (symbol : String) : String :=
  String.mk (replaceFirstChars QUOTE_CURRENCY.toList symbol.toList)

/-- Substring test, used to state the round-trip claim. -/
def hasSubstrChars (pat : List Char) : List Char → Bool
  | [] => pat.isEmpty
  | c :: rest => pat.isPrefixOf (c :: rest) || hasSubstrChars pat rest

def containsQuote (t : String) : Bool :=
  hasSubstrChars QUOTE_CURRENCY.toList t.toList

/-! ### The trading ledger (`TradingBot`) -/

/-- The configuration object of `TradingBot` (`this.config`). -/
structure Config where
  initialBalance : ℚ
  buyThreshold : ℚ
  sellThreshold : ℚ
  tradeAmountPercent : ℚ
  minTradeAmount : ℚ
  maxPositions : Nat
deriving DecidableEq, Repr

/-- Default configuration values from the `TradingBot` constructor. -/
def defaultConfig : Config :=
  { initialBalance := 10000, buyThreshold := 2, sellThreshold := 3,
    tradeAmountPercent := 25, minTradeAmount := 1, maxPositions := 4 }

/-- A price-bearing token object as consumed by `TradingBot` methods. -/
structure Token where
  symbol : String
  currentPrice : ℚ
deriving DecidableEq, Repr

/-- An open position (`this.positions` values); `buyTime` elided. -/
structure Position where
  symbol : String
  amount : ℚ
  buyPrice : ℚ
  peakPrice : ℚ
deriving DecidableEq, Repr

/-- A monitored-token record (`this.monitoredTokens` values). -/
structure Monitored where
  symbol : String
  monitorStartPrice : ℚ
  highestPrice : ℚ
  lowestPrice : ℚ
deriving DecidableEq, Repr

inductive TradeKind
  | buy
  | sell
deriving DecidableEq, Repr

/-- A trade-history record; `id` and `time` elided, sell-only fields
optional (absent on buy trades, as in the source). -/
structure Trade where
  kind : TradeKind
  symbol : String
  price : ℚ
  amount : ℚ
  total : ℚ
  reason : String
  buyPrice : Option ℚ := none
  peakPrice : Option ℚ := none
  profit : Option ℚ := none
  profitPercent : Option ℚ := none
deriving DecidableEq, Repr

structure Stats where
  totalTrades : Nat
  winningTrades : Nat
  losingTrades : Nat
deriving DecidableEq, Repr

/-- The mutable state of a `TradingBot` instance. -/
structure BotState where
  config : Config
  balance : ℚ
  initialBalance : ℚ
  positions : List (String × Position)
  monitoredTokens : List (String × Monitored)
  tradeHistory : List Trade
  stats : Stats
deriving DecidableEq, Repr

inductive SignalType
  | buy
  | sell
deriving DecidableEq, Repr

/-- An ephemeral buy/sell signal emitted by `updateMonitoring`. -/
structure Signal where
  type : SignalType
  token : Token
  reason : String
deriving DecidableEq, Repr

/-- `TradingBot.monitorToken`: insert a fresh monitored record if absent. -/
def monitorToken (s : BotState) (tok : Token) : BotState :=
  match mapFind tok.symbol s.monitoredTokens with
  | some _ => s
  | none =>
    let m0 : Monitored :=
      { symbol := tok.symbol, monitorStartPrice := tok.currentPrice,
        highestPrice := tok.currentPrice, lowestPrice := tok.currentPrice }
    { s with monitoredTokens := mapSet tok.symbol m0 s.monitoredTokens }

/-- Extrema update at the top of the `updateMonitoring` loop body. -/
def updateExtrema (m : Monitored) (price : ℚ) : Monitored :=
  { m with
    highestPrice := if price > m.highestPrice then price else m.highestPrice,
    lowestPrice := if price < m.lowestPrice then price else m.lowestPrice }

/-- Held branch of the `updateMonitoring` loop body: raise the position peak,
then signal a sell when the drop from the (updated) peak reaches
`sellThreshold`. -/
def heldBranch (s : BotState) (tok : Token) (p : Position) : BotState × List Signal :=
  let p1 := { p with peakPrice :=
                if tok.currentPrice > p.peakPrice then tok.currentPrice else p.peakPrice }
  let s2 := { s with positions := mapSet tok.symbol p1 s.positions }
  let dropFromPeak := (p1.peakPrice - tok.currentPrice) / p1.peakPrice * 100
  (s2,
    if dropFromPeak ≥ s.config.sellThreshold then
      [{ type := SignalType.sell, token := tok, reason := "Price dropped from peak" }]
    else [])

/-- Flat branch of the `updateMonitoring` loop body: signal a buy when the
rise from the (updated) tracked low reaches `buyThreshold` and there is
position capacity. -/
def flatBranch (s : BotState) (tok : Token) (m1 : Monitored) : BotState × List Signal :=
  let increaseFromLowest := (tok.currentPrice - m1.lowestPrice) / m1.lowestPrice * 100
  (s,
    if increaseFromLowest ≥ s.config.buyThreshold ∧
        s.positions.length < s.config.maxPositions then
      [{ type := SignalType.buy, token := tok, reason := "Price increased from low" }]
    else [])

/-- One iteration of the `tokens.forEach` body of `TradingBot.updateMonitoring`. -/
def processToken (s : BotState) (tok : Token) : BotState × List Signal :=
  let s0 := monitorToken s tok
  match mapFind tok.symbol s0.monitoredTokens with
  | none => (s0, [])
  | some m =>
    let m1 := updateExtrema m tok.currentPrice
    let s1 := { s0 with monitoredTokens := mapSet tok.symbol m1 s0.monitoredTokens }
    match mapFind tok.symbol s1.positions with
    | some p => heldBranch s1 tok p
    | none => flatBranch s1 tok m1

/-- `TradingBot.updateMonitoring(tokens)`: fold the loop body over the token
list, collecting signals in emission order. -/
def updateMonitoring : BotState → List Token → BotState × List Signal
  | s, [] => (s, [])
  | s, tok :: rest =>
    let r1 := processToken s tok
    let r2 := updateMonitoring r1.1 rest
    (r2.1, r1.2 ++ r2.2)

/-- Result object shape returned by `TradingBot.buy` / `TradingBot.sell`. -/
structure OpResult where
  success : Bool
  message : String
  trade : Option Trade
deriving DecidableEq, Repr

/-- Post-trade monitoring reset shared by `buy` and `sell`: collapse the
tracked extrema to the trade price. -/
def resetMonitoring (s : BotState) (sym : String) (price : ℚ) : BotState :=
  match mapFind sym s.monitoredTokens with
  | some m =>
    let m1 := { m with lowestPrice := price, highestPrice := price }
    { s with monitoredTokens := mapSet sym m1 s.monitoredTokens }
  | none => s

/-- `TradingBot.buy(token, reason)`. -/
def TradingBot.buy (s : BotState) (tok : Token) (reason : String) :
    OpResult × BotState :=
  if s.positions.length ≥ s.config.maxPositions then
    ({ success := false, message := "Maximum positions reached", trade := none }, s)
  else
    let tradeAmount := s.balance * (s.config.tradeAmountPercent / 100)
    if s.balance < tradeAmount ∨ tradeAmount < s.config.minTradeAmount then
      ({ success := false, message := "Insufficient balance", trade := none }, s)
    else
      let amount := tradeAmount / tok.currentPrice
      let pos : Position :=
        { symbol := tok.symbol, amount := amount,
          buyPrice := tok.currentPrice, peakPrice := tok.currentPrice }
      let trade : Trade :=
        { kind := TradeKind.buy, symbol := tok.symbol, price := tok.currentPrice,
          amount := amount, total := tradeAmount, reason := reason }
      let s1 :=
        { s with
          positions := mapSet tok.symbol pos s.positions,
          balance := s.balance - tradeAmount,
          tradeHistory := trade :: s.tradeHistory,
          stats := { s.stats with totalTrades := s.stats.totalTrades + 1 } }
      ({ success := true, message := "", trade := some trade },
        resetMonitoring s1 tok.symbol tok.currentPrice)

/-- `TradingBot.sell(token, reason)`. -/
def TradingBot.sell (s : BotState) (tok : Token) (reason : String) :
    OpResult × BotState :=
  match mapFind tok.symbol s.positions with
  | none => ({ success := false, message := "No position found", trade := none }, s)
  | some p =>
    let sellValue := p.amount * tok.currentPrice
    let profit := sellValue - p.amount * p.buyPrice
    let profitPercent := profit / (p.amount * p.buyPrice) * 100
    let trade : Trade :=
      { kind := TradeKind.sell, symbol := tok.symbol, price := tok.currentPrice,
        amount := p.amount, total := sellValue, reason := reason,
        buyPrice := some p.buyPrice, peakPrice := some p.peakPrice,
        profit := some profit, profitPercent := some profitPercent }
    let s1 :=
      { s with
        balance := s.balance + sellValue,
        positions := mapDelete tok.symbol s.positions,
        tradeHistory := trade :: s.tradeHistory,
        stats :=
          { totalTrades := s.stats.totalTrades + 1,
            winningTrades :=
              if profit > 0 then s.stats.winningTrades + 1 else s.stats.winningTrades,
            losingTrades :=
              if profit > 0 then s.stats.losingTrades else s.stats.losingTrades + 1 } }
    ({ success := true, message := "", trade := some trade },
      resetMonitoring s1 tok.symbol tok.currentPrice)

/-! ### Ledger operation sequences (for the invariant claims) -/

/-- One ledger-facing operation: a `buy` call, a `sell` call, or one
`updateMonitoring` evaluation tick. -/
inductive Step
  | buyStep (tok : Token) (reason : String)
  | sellStep (tok : Token) (reason : String)
  | monitorStep (toks : List Token)

def applyStep (s : BotState) : Step → BotState
  | Step.buyStep tok r => (TradingBot.buy s tok r).2
  | Step.sellStep tok r => (TradingBot.sell s tok r).2
  | Step.monitorStep toks => (updateMonitoring s toks).1

def runSteps : BotState → List Step → BotState
  | s, [] => s
  | s, st :: rest => runSteps (applyStep s st) rest

/-- Traded prices in a step are positive (prices come from market data). -/
def stepPricesPos : Step → Prop
  | Step.buyStep tok _ => 0 < tok.currentPrice
  | Step.sellStep tok _ => 0 < tok.currentPrice
  | Step.monitorStep _ => True

/-- Ledger sanity: nonnegative balance and nonnegative position sizes. -/
def GoodState (s : BotState) : Prop :=
  0 ≤ s.balance ∧ ∀ e ∈ s.positions, 0 ≤ e.2.amount

/-- Peak invariant: every open position's peak is at least its entry price. -/
def PeakInv (s : BotState) : Prop :=
  ∀ e ∈ s.positions, e.2.buyPrice ≤ e.2.peakPrice

/-! ### The order-execution guard (`OrderExecutor`) -/

/-- Outcome of the awaited `bybitAPI.placeOrder` call: clean success, clean
rejection (`success: false`), or a thrown fault caught by the `catch`. -/
inductive ExchangeOutcome
  | ok (orderId : String)
  | rejected (err : String)
  | fault (msg : String)
deriving DecidableEq, Repr

/-- Result object shape returned by `executeBuy` / `executeSell`. -/
structure ExecResult where
  success : Bool
  message : String
  trade : Option Trade
  orderId : Option String
deriving DecidableEq, Repr

/-- Full observable effect of one `executeBuy` / `executeSell` call:
returned result, `executingOrders` set after the call, bot state after the
call, and whether `placeOrder` was invoked. -/
structure ExecOutput where
  result : ExecResult
  executing : List String
  bot : BotState
  exchangeCalled : Bool
deriving DecidableEq, Repr

/-- The check-then-add sequence at the top of `executeBuy`/`executeSell`
(`executingOrders.has` followed by `executingOrders.add`); atomic in the
JavaScript event loop since no `await` separates them. -/
def tryAcquire (executing : List String) (sym : String) : Bool × List String :=
  if sym ∈ executing then (false, executing) else (true, sym :: executing)

/-- `OrderExecutor.executeBuy(token, reason)`. -/
def executeBuy (executing : List String) (bot : BotState) (tok : Token)
    (reason : String) (outcome : ExchangeOutcome) : ExecOutput :=
  let symbol := getFullSymbol tok.symbol
  let acq := tryAcquire executing symbol
  if acq.1 then
    let executing1 := acq.2
    let tradeAmount := bot.balance * (bot.config.tradeAmountPercent / 100)
    if tradeAmount < bot.config.minTradeAmount then
      { result := { success := false, message := "Trade amount below minimum",
                    trade := none, orderId := none },
        executing := executing1.erase symbol, bot := bot, exchangeCalled := false }
    else
      -- quantity = (tradeAmount / price).toFixed(4) is only passed to the
      -- exchange collaborator, which the outcome oracle stands for.
      match outcome with
      | ExchangeOutcome.ok oid =>
        let br := TradingBot.buy bot tok reason
        if br.1.success then
          { result := { success := true, message := "", trade := br.1.trade,
                        orderId := some oid },
            executing := executing1.erase symbol, bot := br.2, exchangeCalled := true }
        else
          { result := { success := false, message := br.1.message, trade := none,
                        orderId := none },
            executing := executing1.erase symbol, bot := br.2, exchangeCalled := true }
      | ExchangeOutcome.rejected err =>
        { result := { success := false, message := "Bybit order failed: " ++ err,
                      trade := none, orderId := none },
          executing := executing1.erase symbol, bot := bot, exchangeCalled := true }
      | ExchangeOutcome.fault msg =>
        { result := { success := false, message := msg, trade := none, orderId := none },
          executing := executing1.erase symbol, bot := bot, exchangeCalled := true }
  else
    { result := { success := false, message := "Order already executing",
                  trade := none, orderId := none },
      executing := executing, bot := bot, exchangeCalled := false }

/-- `OrderExecutor.executeSell(token, reason)`. -/
def executeSell (executing : List String) (bot : BotState) (tok : Token)
    (reason : String) (outcome : ExchangeOutcome) : ExecOutput :=
  let symbol := getFullSymbol tok.symbol
  let acq := tryAcquire executing symbol
  if acq.1 then
    let executing1 := acq.2
    match mapFind tok.symbol bot.positions with
    | none =>
      { result := { success := false, message := "No position found",
                    trade := none, orderId := none },
        executing := executing1.erase symbol, bot := bot, exchangeCalled := false }
    | some _ =>
      match outcome with
      | ExchangeOutcome.ok oid =>
        let sr := TradingBot.sell bot tok reason
        if sr.1.success then
          { result := { success := true, message := "", trade := sr.1.trade,
                        orderId := some oid },
            executing := executing1.erase symbol, bot := sr.2, exchangeCalled := true }
        else
          { result := { success := false, message := sr.1.message, trade := none,
                        orderId := none },
            executing := executing1.erase symbol, bot := sr.2, exchangeCalled := true }
      | ExchangeOutcome.rejected err =>
        { result := { success := false, message := "Bybit order failed: " ++ err,
                      trade := none, orderId := none },
          executing := executing1.erase symbol, bot := bot, exchangeCalled := true }
      | ExchangeOutcome.fault msg =>
        { result := { success := false, message := msg, trade := none, orderId := none },
          executing := executing1.erase symbol, bot := bot, exchangeCalled := true }
  else
    { result := { success := false, message := "Order already executing",
                  trade := none, orderId := none },
      executing := executing, bot := bot, exchangeCalled := false }

/-! ### The price tracker (`MarketData`) -/

/-- A monitored-token record of `MarketData` (`lastUpdate` elided). -/
structure TokenData where
  symbol : String
  fullSymbol : String
  currentPrice : ℚ
  highestPrice : ℚ
  lowestPrice : ℚ
  change30m : ℚ
deriving DecidableEq, Repr

/-- The state touched by `MarketData.updatePrice` / `getPrice` (network and
timestamp fields of the class are not modelled). -/
structure MarketData where
  monitoredTokens : List (String × TokenData)
  prices : List (String × ℚ)
deriving DecidableEq, Repr

/-- `MarketData.updatePrice(symbol, price)`: unconditionally record the
price under the full symbol, then update the monitored record (keyed by the
base token) when present. -/
def MarketData.updatePrice (md : MarketData) (symbol : String) (price : ℚ) :
    MarketData :=
  let baseToken := getBaseToken symbol
  let md1 := { md with prices := mapSet symbol price md.prices }
  match mapFind baseToken md1.monitoredTokens with
  | none => md1
  | some td =>
    let td1 :=
      { td with
        currentPrice := price,
        highestPrice := if price > td.highestPrice then price else td.highestPrice,
        lowestPrice := if price < td.lowestPrice then price else td.lowestPrice }
    { md1 with monitoredTokens := mapSet baseToken td1 md1.monitoredTokens }

/-- `MarketData.getPrice(symbol)`: `this.prices.get(symbol) || 0`. -/
def MarketData.getPrice (md : MarketData) (symbol : String) : ℚ :=
  (mapFind symbol md.prices).getD 0

/-! ### Concrete scenario states -/

/-- Fresh-start ledger with `"BTC"` monitored at a tracked low of `100`
(the state of the §8 scenario just before the 2% rise). -/
def scenarioState : BotState :=
  { config := defaultConfig, balance := 10000, initialBalance := 10000,
    positions := [],
    monitoredTokens :=
      [("BTC", { symbol := "BTC", monitorStartPrice := 100,
                 highestPrice := 100, lowestPrice := 100 })],
    tradeHistory := [], stats := { totalTrades := 0, winningTrades := 0,
                                   losingTrades := 0 } }

/-- `"BTC"` quoted at `102` — a 2.00% rise over the tracked low of `100`. -/
def tok102 : Token := { symbol := "BTC", currentPrice := 102 }

/-- `"BTC"` quoted at `101.999` — a 1.999% rise over the tracked low. -/
def tok1999 : Token := { symbol := "BTC", currentPrice := 101999 / 1000 }

/-- A `"BTC"` position bought at `102` whose peak has risen to `110`. -/
def btcPos : Position :=
  { symbol := "BTC", amount := 25, buyPrice := 102, peakPrice := 110 }

/-- A ledger holding `btcPos`, for exercising the held-position paths. -/
def heldState : BotState :=
  { config := defaultConfig, balance := 7500, initialBalance := 10000,
    positions := [("BTC", btcPos)],
    monitoredTokens :=
      [("BTC", { symbol := "BTC", monitorStartPrice := 100,
                 highestPrice := 110, lowestPrice := 102 })],
    tradeHistory := [], stats := { totalTrades := 1, winningTrades := 0,
                                   losingTrades := 0 } }

/-- `"BTC"` quoted at `106.59` — a 3.1% drop from the peak of `110`. -/
def tokDrop : Token := { symbol := "BTC", currentPrice := 10659 / 100 }

/-- A `MarketData` instance monitoring nothing. -/
def mdEmpty : MarketData := { monitoredTokens := [], prices := [] }

/-! ### Association-list lemmas -/

theorem mapFind_mapSet_self {α : Type} (k : String) (v : α) (l : List (String × α)) :
    mapFind k (mapSet k v l) = some v := by
  induction l with
  | nil => simp [mapFind, mapSet]
  | cons hd tl ih =>
    obtain ⟨k', v'⟩ := hd
    by_cases h : k' = k <;> simp [mapFind, mapSet, h, ih]

theorem mapFind_mapSet_ne {α : Type} {k k' : String} (v : α) (l : List (String × α))
    (h : k' ≠ k) : mapFind k' (mapSet k v l) = mapFind k' l := by
  have hne : ¬ k = k' := fun hh => h hh.symm
  induction l with
  | nil => simp [mapFind, mapSet, hne]
  | cons hd tl ih =>
    obtain ⟨k₀, v₀⟩ := hd
    by_cases h₀ : k₀ = k
    · subst h₀
      simp [mapFind, mapSet, hne]
    · simp [mapFind, mapSet, h₀, ih]

theorem mapFind_mapDelete_self {α : Type} (k : String) (l : List (String × α)) :
    mapFind k (mapDelete k l) = none := by
  induction l with
  | nil => simp [mapFind, mapDelete]
  | cons hd tl ih =>
    obtain ⟨k', v'⟩ := hd
    by_cases h : k' = k <;> simp [mapFind, mapDelete, h, ih]

theorem mapFind_mapDelete_ne {α : Type} {k k' : String} (l : List (String × α))
    (h : k' ≠ k) : mapFind k' (mapDelete k l) = mapFind k' l := by
  have hne : ¬ k = k' := fun hh => h hh.symm
  induction l with
  | nil => simp [mapFind, mapDelete]
  | cons hd tl ih =>
    obtain ⟨k₀, v₀⟩ := hd
    by_cases h₀ : k₀ = k
    · subst h₀
      simp [mapFind, mapDelete, hne, ih]
    · simp [mapFind, mapDelete, h₀, ih]

theorem mem_mapSet {α : Type} {e : String × α} {k : String} {v : α}
    {l : List (String × α)} (h : e ∈ mapSet k v l) : e = (k, v) ∨ e ∈ l := by
  induction l with
  | nil =>
    simp [mapSet] at h
    exact Or.inl h
  | cons hd tl ih =>
    obtain ⟨k₀, v₀⟩ := hd
    by_cases h₀ : k₀ = k
    · simp [mapSet, h₀] at h
      rcases h with h | h
      · exact Or.inl h
      · exact Or.inr (List.mem_cons_of_mem _ h)
    · simp [mapSet, h₀] at h
      rcases h with h | h
      · exact Or.inr (by simp [h])
      · rcases ih h with h' | h'
        · exact Or.inl h'
        · exact Or.inr (List.mem_cons_of_mem _ h')

theorem mem_mapDelete {α : Type} {e : String × α} {k : String}
    {l : List (String × α)} (h : e ∈ mapDelete k l) : e ∈ l := by
  induction l with
  | nil => simp [mapDelete] at h
  | cons hd tl ih =>
    obtain ⟨k₀, v₀⟩ := hd
    by_cases h₀ : k₀ = k
    · simp [mapDelete, h₀] at h
      exact List.mem_cons_of_mem _ (ih h)
    · simp [mapDelete, h₀] at h
      rcases h with h | h
      · simp [h]
      · exact List.mem_cons_of_mem _ (ih h)

theorem mapFind_mem {α : Type} {k : String} {v : α} {l : List (String × α)}
    (h : mapFind k l = some v) : (k, v) ∈ l := by
  induction l with
  | nil => simp [mapFind] at h
  | cons hd tl ih =>
    obtain ⟨k₀, v₀⟩ := hd
    by_cases h₀ : k₀ = k
    · simp [mapFind, h₀] at h
      simp [h₀, h]
    · simp [mapFind, h₀] at h
      exact List.mem_cons_of_mem _ (ih h)

/-! ### String lemmas for symbol canonicalization -/

theorem quote_toList : QUOTE_CURRENCY.toList = ['U', 'S', 'D', 'T'] := rfl

/-- `"USDT"` has no nontrivial border, so it cannot start inside `l` and
finish inside the appended copy: if it is not a prefix of the nonempty `l`,
it is not a prefix of `l ++ "USDT"` either. -/
theorem usdt_not_prefixOf_append {l : List Char}
    (hs : hasSubstrChars QUOTE_CURRENCY.toList l = false) (hne : l ≠ []) :
    QUOTE_CURRENCY.toList.isPrefixOf (l ++ QUOTE_CURRENCY.toList) = false := by
  rw [quote_toList] at hs ⊢
  match l with
  | [] => exact absurd rfl hne
  | [c1] =>
    have h2 : ('S' == 'U') = false := by decide
    simp [List.isPrefixOf, h2]
  | [c1, c2] =>
    have h3 : ('D' == 'U') = false := by decide
    simp [List.isPrefixOf, h3]
  | [c1, c2, c3] =>
    have h4 : ('T' == 'U') = false := by decide
    simp [List.isPrefixOf, h4]
  | c1 :: c2 :: c3 :: c4 :: rest =>
    simp only [hasSubstrChars, Bool.or_eq_false_iff] at hs
    have h1 := hs.1
    simp only [List.cons_append, List.isPrefixOf] at h1 ⊢
    simpa using h1

/-- Removing the first `"USDT"` from `l ++ "USDT"` recovers `l` whenever
`l` itself contains no `"USDT"`. -/
theorem replaceFirst_append_self {l : List Char}
    (hs : hasSubstrChars QUOTE_CURRENCY.toList l = false) :
    replaceFirstChars QUOTE_CURRENCY.toList (l ++ QUOTE_CURRENCY.toList) = l := by
  induction l with
  | nil => decide
  | cons c rest ih =>
    have hpre := usdt_not_prefixOf_append hs (List.cons_ne_nil c rest)
    have h2 : hasSubstrChars QUOTE_CURRENCY.toList rest = false := by
      simp only [hasSubstrChars, Bool.or_eq_false_iff] at hs
      exact hs.2
    rw [List.cons_append]
    rw [List.cons_append] at hpre
    unfold replaceFirstChars
    rw [hpre]
    simp only [Bool.false_eq_true, if_false]
    rw [ih h2]

/-! ### Claim C10: symbol canonicalization round-trip -/

/-- C10 (amended): for every base token `t` that does not contain the quote
currency `"USDT"` as a substring, `getBaseToken (getFullSymbol t) = t`;
`getBaseToken` removes only the first `"USDT"` occurrence, so for some base
tokens containing `"USDT"` — such as `"USDTX"` — the round-trip does not
restore the original token (though, contrary to the original claim, not for
all of them). -/
theorem C10_symbol_roundtrip :
    (∀ t : String, containsQuote t = false →
        getBaseToken (getFullSymbol t) = t) ∧
    (containsQuote "USDTX" = true ∧
        getBaseToken (getFullSymbol "USDTX") ≠ "USDTX") := by
  constructor
  · intro t ht
    unfold getBaseToken getFullSymbol
    have hdata : (t ++ QUOTE_CURRENCY).toList = t.toList ++ QUOTE_CURRENCY.toList := rfl
    rw [hdata, replaceFirst_append_self ht]
    rfl
  · exact ⟨by decide, by decide⟩

/-- C10 witness: the round-trip at the concrete token `"BTC"`. -/
theorem C10_symbol_roundtrip_witness :
    containsQuote "BTC" = false ∧ getBaseToken (getFullSymbol "BTC") = "BTC" :=
  ⟨by decide, C10_symbol_roundtrip.1 "BTC" (by decide)⟩

/-- C10 counterexample to the original claim: `"USDT"` itself contains the
quote currency as a substring, yet `getBaseToken (getFullSymbol "USDT")`
does restore the original token — the first-occurrence removal deletes the
leading copy and the appended copy survives in place. -/
theorem C10_symbol_roundtrip_counterexample :
    containsQuote "USDT" = true ∧ getBaseToken (getFullSymbol "USDT") = "USDT" :=
  ⟨by decide, by decide⟩

/-! ### Claim C2: duplicate-execution rejection -/

/-- C2: when the full symbol is already in the in-flight set, `executeBuy`
and `executeSell` return the "Order already executing" rejection without
calling the exchange collaborator and without mutating the ledger or the
in-flight set; and of two racing acquisitions of the in-flight marker for
one symbol, exactly the first obtains it. -/
theorem C2_already_executing :
    (∀ (ex : List String) (bot : BotState) (tok : Token) (r : String)
        (o : ExchangeOutcome), getFullSymbol tok.symbol ∈ ex →
      executeBuy ex bot tok r o =
        ⟨⟨false, "Order already executing", none, none⟩, ex, bot, false⟩) ∧
    (∀ (ex : List String) (bot : BotState) (tok : Token) (r : String)
        (o : ExchangeOutcome), getFullSymbol tok.symbol ∈ ex →
      executeSell ex bot tok r o =
        ⟨⟨false, "Order already executing", none, none⟩, ex, bot, false⟩) ∧
    (∀ (ex : List String) (sym : String), sym ∉ ex →
      (tryAcquire ex sym).1 = true ∧
        (tryAcquire (tryAcquire ex sym).2 sym).1 = false) := by
  refine ⟨?_, ?_, ?_⟩
  · intro ex bot tok r o h
    simp [executeBuy, tryAcquire, h]
  · intro ex bot tok r o h
    simp [executeSell, tryAcquire, h]
  · intro ex sym h
    constructor <;> simp [tryAcquire, h]

/-- C2 witness: a call for `"BTC"` while `"BTCUSDT"` is in-flight is
rejected untouched, and the marker race at the empty set resolves to the
first caller. -/
theorem C2_already_executing_witness :
    getFullSymbol tok102.symbol ∈ ["BTCUSDT"] ∧
    executeBuy ["BTCUSDT"] scenarioState tok102 "r" (ExchangeOutcome.ok "1") =
      ⟨⟨false, "Order already executing", none, none⟩, ["BTCUSDT"],
        scenarioState, false⟩ ∧
    ("BTCUSDT" ∉ ([] : List String) ∧ (tryAcquire [] "BTCUSDT").1 = true ∧
      (tryAcquire (tryAcquire [] "BTCUSDT").2 "BTCUSDT").1 = false) :=
  ⟨by decide, C2_already_executing.1 _ _ _ _ _ (by decide),
   ⟨by simp, C2_already_executing.2.2 [] "BTCUSDT" (by simp)⟩⟩

/-! ### Claim C3: unconditional release of the in-flight mark -/

/-- C3: a call that passes the in-flight check clears the mark before
returning on every exit path — for every exchange outcome (success,
rejection, thrown fault) and every internal branch, `executeBuy` and
`executeSell` restore the in-flight set to its prior value, so the symbol
is not in the set after the call returns. -/
theorem C3_inflight_release (ex : List String) (bot : BotState) (tok : Token)
    (r : String) (o : ExchangeOutcome)
    (h : getFullSymbol tok.symbol ∉ ex) :
    (executeBuy ex bot tok r o).executing = ex ∧
    (executeSell ex bot tok r o).executing = ex ∧
    getFullSymbol tok.symbol ∉ (executeBuy ex bot tok r o).executing ∧
    getFullSymbol tok.symbol ∉ (executeSell ex bot tok r o).executing := by
  have hb : (executeBuy ex bot tok r o).executing = ex := by
    cases o <;>
      simp only [executeBuy, tryAcquire, h, if_false, if_true, ite_not] <;>
      simp [h, List.erase_cons_head] <;>
      split <;>
      (try split) <;>
      rfl
  have hs : (executeSell ex bot tok r o).executing = ex := by
    cases o <;>
      simp only [executeSell, tryAcquire, h, if_false, if_true, ite_not] <;>
      simp [h, List.erase_cons_head] <;>
      split <;>
      (try split) <;>
      rfl
  exact ⟨hb, hs, by rw [hb]; exact h, by rw [hs]; exact h⟩

/-- C3 witness: a fresh buy and a fresh sell call at the empty in-flight
set leave it empty. -/
theorem C3_inflight_release_witness :
    getFullSymbol tok102.symbol ∉ ([] : List String) ∧
    (executeBuy [] scenarioState tok102 "r" (ExchangeOutcome.ok "1")).executing = [] ∧
    (executeSell [] scenarioState tok102 "r" (ExchangeOutcome.ok "1")).executing = [] :=
  ⟨by simp,
   (C3_inflight_release [] scenarioState tok102 "r" (ExchangeOutcome.ok "1") (by simp)).1,
   (C3_inflight_release [] scenarioState tok102 "r" (ExchangeOutcome.ok "1") (by simp)).2.1⟩

/-! ### `resetMonitoring` only touches the monitored-token map -/

theorem resetMonitoring_balance (s : BotState) (sym : String) (pr : ℚ) :
    (resetMonitoring s sym pr).balance = s.balance := by
  unfold resetMonitoring
  split <;> rfl

theorem resetMonitoring_positions (s : BotState) (sym : String) (pr : ℚ) :
    (resetMonitoring s sym pr).positions = s.positions := by
  unfold resetMonitoring
  split <;> rfl

theorem resetMonitoring_tradeHistory (s : BotState) (sym : String) (pr : ℚ) :
    (resetMonitoring s sym pr).tradeHistory = s.tradeHistory := by
  unfold resetMonitoring
  split <;> rfl

theorem resetMonitoring_stats (s : BotState) (sym : String) (pr : ℚ) :
    (resetMonitoring s sym pr).stats = s.stats := by
  unfold resetMonitoring
  split <;> rfl

theorem resetMonitoring_config (s : BotState) (sym : String) (pr : ℚ) :
    (resetMonitoring s sym pr).config = s.config := by
  unfold resetMonitoring
  split <;> rfl

/-! ### Claim C8: effects of a successful sell -/

/-- C8: with an open position `p` on the token's symbol, `sell` succeeds,
credits the balance with `p.amount × price`, removes the position, prepends
a sell trade whose profit is proceeds minus cost basis and whose
profitPercent is profit relative to cost basis, increments `totalTrades`,
and increments `winningTrades` exactly when profit is strictly positive and
`losingTrades` otherwise — so a zero-profit trade counts as losing. -/
theorem C8_sell_effects (s : BotState) (tok : Token) (r : String) (p : Position)
    (hp : mapFind tok.symbol s.positions = some p) :
    (TradingBot.sell s tok r).1.success = true ∧
    (TradingBot.sell s tok r).2.balance = s.balance + p.amount * tok.currentPrice ∧
    mapFind tok.symbol (TradingBot.sell s tok r).2.positions = none ∧
    (TradingBot.sell s tok r).2.tradeHistory =
      { kind := TradeKind.sell, symbol := tok.symbol, price := tok.currentPrice,
        amount := p.amount, total := p.amount * tok.currentPrice, reason := r,
        buyPrice := some p.buyPrice, peakPrice := some p.peakPrice,
        profit := some (p.amount * tok.currentPrice - p.amount * p.buyPrice),
        profitPercent := some ((p.amount * tok.currentPrice - p.amount * p.buyPrice) /
          (p.amount * p.buyPrice) * 100) } :: s.tradeHistory ∧
    (TradingBot.sell s tok r).2.stats.totalTrades = s.stats.totalTrades + 1 ∧
    (TradingBot.sell s tok r).2.stats.winningTrades =
      (if p.amount * tok.currentPrice - p.amount * p.buyPrice > 0
       then s.stats.winningTrades + 1 else s.stats.winningTrades) ∧
    (TradingBot.sell s tok r).2.stats.losingTrades =
      (if p.amount * tok.currentPrice - p.amount * p.buyPrice > 0
       then s.stats.losingTrades else s.stats.losingTrades + 1) ∧
    (p.amount * tok.currentPrice = p.amount * p.buyPrice →
      (TradingBot.sell s tok r).2.stats.losingTrades = s.stats.losingTrades + 1) := by
  refine ⟨?_, ?_, ?_, ?_, ?_, ?_, ?_, ?_⟩ <;>
    simp only [TradingBot.sell, hp, resetMonitoring_balance, resetMonitoring_positions,
      resetMonitoring_tradeHistory, resetMonitoring_stats, mapFind_mapDelete_self]
  all_goals first
    | rfl
    | (intro hz
       rw [hz]
       simp)

/-- C8 witness: selling the held `"BTC"` position at `106.59`. -/
theorem C8_sell_effects_witness :
    mapFind "BTC" heldState.positions = some btcPos ∧
    ((TradingBot.sell heldState tokDrop "r").1.success = true ∧
     (TradingBot.sell heldState tokDrop "r").2.balance =
       heldState.balance + btcPos.amount * tokDrop.currentPrice ∧
     mapFind "BTC" (TradingBot.sell heldState tokDrop "r").2.positions = none ∧
     (TradingBot.sell heldState tokDrop "r").2.tradeHistory =
       { kind := TradeKind.sell, symbol := tokDrop.symbol,
         price := tokDrop.currentPrice,
         amount := btcPos.amount, total := btcPos.amount * tokDrop.currentPrice,
         reason := "r",
         buyPrice := some btcPos.buyPrice, peakPrice := some btcPos.peakPrice,
         profit := some (btcPos.amount * tokDrop.currentPrice -
           btcPos.amount * btcPos.buyPrice),
         profitPercent := some ((btcPos.amount * tokDrop.currentPrice -
           btcPos.amount * btcPos.buyPrice) /
           (btcPos.amount * btcPos.buyPrice) * 100) } :: heldState.tradeHistory ∧
     (TradingBot.sell heldState tokDrop "r").2.stats.totalTrades =
       heldState.stats.totalTrades + 1 ∧
     (TradingBot.sell heldState tokDrop "r").2.stats.winningTrades =
       (if btcPos.amount * tokDrop.currentPrice - btcPos.amount * btcPos.buyPrice > 0
        then heldState.stats.winningTrades + 1 else heldState.stats.winningTrades) ∧
     (TradingBot.sell heldState tokDrop "r").2.stats.losingTrades =
       (if btcPos.amount * tokDrop.currentPrice - btcPos.amount * btcPos.buyPrice > 0
        then heldState.stats.losingTrades else heldState.stats.losingTrades + 1) ∧
     (btcPos.amount * tokDrop.currentPrice = btcPos.amount * btcPos.buyPrice →
       (TradingBot.sell heldState tokDrop "r").2.stats.losingTrades =
         heldState.stats.losingTrades + 1)) :=
  ⟨by decide, by
    have h := C8_sell_effects heldState tokDrop "r" btcPos (by decide)
    simpa using h⟩

/-! ### Claim C5: buy-signal condition for a flat symbol -/

/-- C5: one evaluation tick for a monitored symbol with no open position
emits a buy signal iff the percentage rise of the current price over the
tracked low (the low updated with the current observation first, as in the
loop body) reaches `buyThreshold` and the open-position count is below
`maxPositions`; at the default 2% threshold, a 2.00% rise over the tracked
low emits the signal and a 1.999% rise does not. -/
theorem C5_buy_signal :
    (∀ (s : BotState) (tok : Token) (m : Monitored),
        mapFind tok.symbol s.monitoredTokens = some m →
        mapFind tok.symbol s.positions = none →
        0 < m.lowestPrice → 0 < tok.currentPrice →
        (updateMonitoring s [tok]).2 =
          (if (tok.currentPrice -
                 (if tok.currentPrice < m.lowestPrice then tok.currentPrice
                  else m.lowestPrice)) /
                (if tok.currentPrice < m.lowestPrice then tok.currentPrice
                 else m.lowestPrice) * 100 ≥ s.config.buyThreshold ∧
               s.positions.length < s.config.maxPositions
           then [{ type := SignalType.buy, token := tok,
                   reason := "Price increased from low" }]
           else [])) ∧
    (updateMonitoring scenarioState [tok102]).2.map Signal.type = [SignalType.buy] ∧
    (updateMonitoring scenarioState [tok1999]).2 = [] := by
  refine ⟨?_,
    by norm_num [updateMonitoring, processToken, monitorToken, scenarioState, tok102,
      defaultConfig, updateExtrema, flatBranch, mapFind],
    by norm_num [updateMonitoring, processToken, monitorToken, scenarioState, tok1999,
      defaultConfig, updateExtrema, flatBranch, mapFind]⟩
  intro s tok m hm hp hlow hpx
  simp only [updateMonitoring, processToken, monitorToken, hm, updateExtrema,
    flatBranch, hp, List.append_nil]

/-- C5 witness: the general buy-signal condition applied to the 2.00%-rise
scenario state. -/
theorem C5_buy_signal_witness :
    mapFind "BTC" scenarioState.monitoredTokens =
      some { symbol := "BTC", monitorStartPrice := 100,
             highestPrice := 100, lowestPrice := 100 } ∧
    mapFind "BTC" scenarioState.positions = none ∧
    (updateMonitoring scenarioState [tok102]).2 =
      [{ type := SignalType.buy, token := tok102,
         reason := "Price increased from low" }] := by
  refine ⟨by decide, by decide, ?_⟩
  have h := C5_buy_signal.1 scenarioState tok102
    { symbol := "BTC", monitorStartPrice := 100,
      highestPrice := 100, lowestPrice := 100 }
    (by decide) (by decide) (by decide) (by decide)
  rw [h]
  norm_num [scenarioState, tok102, defaultConfig]

/-! ### Claim C7: trailing-stop sell evaluation for a held symbol -/

/-- C7: one evaluation tick for a held symbol first raises the position's
peak to `max peakPrice currentPrice`, then emits a sell signal iff the
percentage drop of the current price from that updated peak reaches
`sellThreshold` — the drop is measured from the running peak, not from the
entry price. -/
theorem C7_sell_signal (s : BotState) (tok : Token) (m : Monitored) (p : Position)
    (hm : mapFind tok.symbol s.monitoredTokens = some m)
    (hp : mapFind tok.symbol s.positions = some p)
    (_hpk : 0 < p.peakPrice) :
    mapFind tok.symbol (updateMonitoring s [tok]).1.positions =
      some { p with peakPrice := max p.peakPrice tok.currentPrice } ∧
    (updateMonitoring s [tok]).2 =
      (if (max p.peakPrice tok.currentPrice - tok.currentPrice) /
            max p.peakPrice tok.currentPrice * 100 ≥ s.config.sellThreshold
       then [{ type := SignalType.sell, token := tok,
               reason := "Price dropped from peak" }]
       else []) := by
  have hmax : (if tok.currentPrice > p.peakPrice then tok.currentPrice else p.peakPrice) =
      max p.peakPrice tok.currentPrice := by
    rcases le_or_lt tok.currentPrice p.peakPrice with h | h
    · rw [max_eq_left h]
      simp [not_lt.mpr h]
    · rw [max_eq_right h.le]
      simp [h]
  simp only [updateMonitoring, processToken, monitorToken, hm, updateExtrema,
    heldBranch, hp, List.append_nil, hmax]
  constructor
  · exact mapFind_mapSet_self _ _ _
  · trivial

/-- C7 witness: the held `"BTC"` position at a 3.1% drop from its peak of
`110` has its peak kept at `110` and a sell signal is emitted. -/
theorem C7_sell_signal_witness :
    mapFind "BTC" heldState.positions = some btcPos ∧
    0 < btcPos.peakPrice ∧
    mapFind "BTC" (updateMonitoring heldState [tokDrop]).1.positions =
      some { btcPos with peakPrice := max btcPos.peakPrice tokDrop.currentPrice } ∧
    (updateMonitoring heldState [tokDrop]).2 =
      [{ type := SignalType.sell, token := tokDrop,
         reason := "Price dropped from peak" }] := by
  have h := C7_sell_signal heldState tokDrop
    { symbol := "BTC", monitorStartPrice := 100, highestPrice := 110, lowestPrice := 102 }
    btcPos (by decide) (by decide) (by decide)
  refine ⟨by decide, by decide, h.1, ?_⟩
  rw [h.2]
  norm_num [heldState, btcPos, tokDrop, defaultConfig]

/-! ### Frame lemmas for the ledger operations -/

theorem monitorToken_positions (s : BotState) (tok : Token) :
    (monitorToken s tok).positions = s.positions := by
  unfold monitorToken
  split <;> rfl

theorem monitorToken_balance (s : BotState) (tok : Token) :
    (monitorToken s tok).balance = s.balance := by
  unfold monitorToken
  split <;> rfl

theorem monitorToken_config (s : BotState) (tok : Token) :
    (monitorToken s tok).config = s.config := by
  unfold monitorToken
  split <;> rfl

/-- After `monitorToken`, the token's monitored record is always present. -/
theorem monitorToken_find (s : BotState) (tok : Token) :
    ∃ m, mapFind tok.symbol (monitorToken s tok).monitoredTokens = some m := by
  unfold monitorToken
  cases hm0 : mapFind tok.symbol s.monitoredTokens with
  | some m => exact ⟨m, hm0⟩
  | none => exact ⟨_, mapFind_mapSet_self _ _ _⟩

theorem buy_config (s : BotState) (tok : Token) (r : String) :
    (TradingBot.buy s tok r).2.config = s.config := by
  simp only [TradingBot.buy]
  split
  · rfl
  · split
    · rfl
    · simp [resetMonitoring_config]

theorem sell_config (s : BotState) (tok : Token) (r : String) :
    (TradingBot.sell s tok r).2.config = s.config := by
  simp only [TradingBot.sell]
  split
  · rfl
  · simp [resetMonitoring_config]

/-- What one `updateMonitoring` loop iteration does to the state: balance
and config are untouched, and the position map is either untouched (flat
branch) or has exactly the processed symbol's peak raised (held branch). -/
theorem processToken_spec (s : BotState) (tok : Token) :
    (processToken s tok).1.balance = s.balance ∧
    (processToken s tok).1.config = s.config ∧
    ((processToken s tok).1.positions = s.positions ∨
      ∃ p, mapFind tok.symbol s.positions = some p ∧
        (processToken s tok).1.positions =
          mapSet tok.symbol
            ({ p with peakPrice :=
                if tok.currentPrice > p.peakPrice then tok.currentPrice
                else p.peakPrice }) s.positions) := by
  obtain ⟨m, hm⟩ := monitorToken_find s tok
  have hpos0 := monitorToken_positions s tok
  have hbal0 := monitorToken_balance s tok
  have hcfg0 := monitorToken_config s tok
  cases hp : mapFind tok.symbol s.positions with
  | none =>
    have hp' : mapFind tok.symbol (monitorToken s tok).positions = none := by
      rw [hpos0]
      exact hp
    simp only [processToken, hm, hp', flatBranch]
    exact ⟨hbal0, hcfg0, Or.inl hpos0⟩
  | some p =>
    have hp' : mapFind tok.symbol (monitorToken s tok).positions = some p := by
      rw [hpos0]
      exact hp
    simp only [processToken, hm, hp', heldBranch]
    refine ⟨hbal0, hcfg0, Or.inr ⟨p, ?_, ?_⟩⟩
    · simp [hp]
    · rw [hpos0]

theorem updateMonitoring_frame (toks : List Token) : ∀ s : BotState,
    (updateMonitoring s toks).1.balance = s.balance ∧
    (updateMonitoring s toks).1.config = s.config := by
  induction toks with
  | nil => exact fun s => ⟨rfl, rfl⟩
  | cons tok rest ih =>
    intro s
    obtain ⟨hb, hc, _⟩ := processToken_spec s tok
    obtain ⟨hb', hc'⟩ := ih (processToken s tok).1
    refine ⟨?_, ?_⟩ <;> simp only [updateMonitoring]
    · exact hb'.trans hb
    · exact hc'.trans hc

/-! ### Preservation of the ledger sanity invariant -/

theorem buy_goodState (s : BotState) (tok : Token) (r : String)
    (hmin : 0 ≤ s.config.minTradeAmount) (hpx : 0 < tok.currentPrice)
    (hg : GoodState s) : GoodState (TradingBot.buy s tok r).2 := by
  obtain ⟨hbal, hpos⟩ := hg
  by_cases h1 : s.positions.length ≥ s.config.maxPositions
  · simp only [TradingBot.buy, h1]
    exact ⟨hbal, hpos⟩
  · by_cases h2 : s.balance < s.balance * (s.config.tradeAmountPercent / 100) ∨
        s.balance * (s.config.tradeAmountPercent / 100) < s.config.minTradeAmount
    · simp only [TradingBot.buy]
      simp [h1, h2]
      exact ⟨hbal, hpos⟩
    · have hA : ¬ s.balance < s.balance * (s.config.tradeAmountPercent / 100) :=
        fun hh => h2 (Or.inl hh)
      have hB : ¬ s.balance * (s.config.tradeAmountPercent / 100) <
          s.config.minTradeAmount := fun hh => h2 (Or.inr hh)
      refine ⟨?_, ?_⟩
      · have hb : (TradingBot.buy s tok r).2.balance =
            s.balance - s.balance * (s.config.tradeAmountPercent / 100) := by
          simp [TradingBot.buy, h1, h2, resetMonitoring_balance]
        rw [hb]
        have := not_lt.mp hA
        linarith
      · have hps : (TradingBot.buy s tok r).2.positions =
            mapSet tok.symbol
              ({ symbol := tok.symbol,
                 amount := s.balance * (s.config.tradeAmountPercent / 100) /
                   tok.currentPrice,
                 buyPrice := tok.currentPrice, peakPrice := tok.currentPrice })
              s.positions := by
          simp [TradingBot.buy, h1, h2, resetMonitoring_positions]
        rw [hps]
        intro e he
        rcases mem_mapSet he with he' | he'
        · subst he'
          have hTA : (0:ℚ) ≤ s.balance * (s.config.tradeAmountPercent / 100) :=
            le_trans hmin (not_lt.mp hB)
          simpa using div_nonneg hTA hpx.le
        · exact hpos e he'

theorem sell_goodState (s : BotState) (tok : Token) (r : String)
    (hpx : 0 < tok.currentPrice) (hg : GoodState s) :
    GoodState (TradingBot.sell s tok r).2 := by
  obtain ⟨hbal, hpos⟩ := hg
  cases hfind : mapFind tok.symbol s.positions with
  | none =>
    simp only [TradingBot.sell, hfind]
    exact ⟨hbal, hpos⟩
  | some p =>
    refine ⟨?_, ?_⟩
    · have hb : (TradingBot.sell s tok r).2.balance =
          s.balance + p.amount * tok.currentPrice := by
        simp [TradingBot.sell, hfind, resetMonitoring_balance]
      rw [hb]
      exact add_nonneg hbal (mul_nonneg (hpos _ (mapFind_mem hfind)) hpx.le)
    · have hps : (TradingBot.sell s tok r).2.positions =
          mapDelete tok.symbol s.positions := by
        simp [TradingBot.sell, hfind, resetMonitoring_positions]
      rw [hps]
      intro e he
      exact hpos e (mem_mapDelete he)

theorem processToken_goodState (s : BotState) (tok : Token) (hg : GoodState s) :
    GoodState (processToken s tok).1 := by
  obtain ⟨hbal, hpos⟩ := hg
  obtain ⟨hb, _, hps⟩ := processToken_spec s tok
  refine ⟨by rw [hb]; exact hbal, ?_⟩
  rcases hps with h | ⟨p, hfind, h⟩
  · rw [h]
    exact hpos
  · rw [h]
    intro e he
    rcases mem_mapSet he with he' | he'
    · subst he'
      simpa using hpos _ (mapFind_mem hfind)
    · exact hpos e he'

theorem updateMonitoring_goodState (toks : List Token) : ∀ s : BotState,
    GoodState s → GoodState (updateMonitoring s toks).1 := by
  induction toks with
  | nil => exact fun s hg => hg
  | cons tok rest ih =>
    intro s hg
    have h1 := processToken_goodState s tok hg
    have h2 := ih (processToken s tok).1 h1
    simpa only [updateMonitoring] using h2

theorem applyStep_config (s : BotState) (st : Step) :
    (applyStep s st).config = s.config := by
  cases st with
  | buyStep tok r => exact buy_config s tok r
  | sellStep tok r => exact sell_config s tok r
  | monitorStep toks => exact (updateMonitoring_frame toks s).2

theorem applyStep_goodState (s : BotState) (st : Step)
    (hmin : 0 ≤ s.config.minTradeAmount) (hst : stepPricesPos st)
    (hg : GoodState s) : GoodState (applyStep s st) := by
  cases st with
  | buyStep tok r => exact buy_goodState s tok r hmin hst hg
  | sellStep tok r => exact sell_goodState s tok r hst hg
  | monitorStep toks => exact updateMonitoring_goodState toks s hg

/-! ### Preservation of the peak invariant -/

theorem buy_peak_init (s : BotState) (tok : Token) (r : String)
    (h : (TradingBot.buy s tok r).1.success = true) :
    mapFind tok.symbol (TradingBot.buy s tok r).2.positions =
      some { symbol := tok.symbol,
             amount := s.balance * (s.config.tradeAmountPercent / 100) /
               tok.currentPrice,
             buyPrice := tok.currentPrice, peakPrice := tok.currentPrice } := by
  by_cases h1 : s.positions.length ≥ s.config.maxPositions
  · simp [TradingBot.buy, h1] at h
  · by_cases h2 : s.balance < s.balance * (s.config.tradeAmountPercent / 100) ∨
        s.balance * (s.config.tradeAmountPercent / 100) < s.config.minTradeAmount
    · simp [TradingBot.buy, h1, h2] at h
    · simp [TradingBot.buy, h1, h2, resetMonitoring_positions, mapFind_mapSet_self]

theorem buy_peakInv (s : BotState) (tok : Token) (r : String) (hI : PeakInv s) :
    PeakInv (TradingBot.buy s tok r).2 := by
  by_cases h1 : s.positions.length ≥ s.config.maxPositions
  · simp only [TradingBot.buy, h1]
    exact hI
  · by_cases h2 : s.balance < s.balance * (s.config.tradeAmountPercent / 100) ∨
        s.balance * (s.config.tradeAmountPercent / 100) < s.config.minTradeAmount
    · simp only [TradingBot.buy]
      simp [h1, h2]
      exact hI
    · have hps : (TradingBot.buy s tok r).2.positions =
          mapSet tok.symbol
            ({ symbol := tok.symbol,
               amount := s.balance * (s.config.tradeAmountPercent / 100) /
                 tok.currentPrice,
               buyPrice := tok.currentPrice, peakPrice := tok.currentPrice })
            s.positions := by
        simp [TradingBot.buy, h1, h2, resetMonitoring_positions]
      intro e he
      rw [hps] at he
      rcases mem_mapSet he with he' | he'
      · subst he'
        simp
      · exact hI e he'

theorem sell_peakInv (s : BotState) (tok : Token) (r : String) (hI : PeakInv s) :
    PeakInv (TradingBot.sell s tok r).2 := by
  cases hfind : mapFind tok.symbol s.positions with
  | none =>
    simp only [TradingBot.sell, hfind]
    exact hI
  | some p =>
    have hps : (TradingBot.sell s tok r).2.positions =
        mapDelete tok.symbol s.positions := by
      simp [TradingBot.sell, hfind, resetMonitoring_positions]
    intro e he
    rw [hps] at he
    exact hI e (mem_mapDelete he)

theorem processToken_peakInv (s : BotState) (tok : Token) (hI : PeakInv s) :
    PeakInv (processToken s tok).1 := by
  obtain ⟨_, _, hps⟩ := processToken_spec s tok
  rcases hps with h | ⟨p, hfind, h⟩
  · intro e he
    rw [h] at he
    exact hI e he
  · intro e he
    rw [h] at he
    rcases mem_mapSet he with he' | he'
    · subst he'
      have hbp := hI _ (mapFind_mem hfind)
      by_cases hc : tok.currentPrice > p.peakPrice
      · simpa [hc] using le_trans hbp (le_of_lt hc)
      · simpa [hc] using hbp
    · exact hI e he'

theorem updateMonitoring_peakInv (toks : List Token) : ∀ s : BotState,
    PeakInv s → PeakInv (updateMonitoring s toks).1 := by
  induction toks with
  | nil => exact fun s hI => hI
  | cons tok rest ih =>
    intro s hI
    have h1 := processToken_peakInv s tok hI
    have h2 := ih (processToken s tok).1 h1
    simpa only [updateMonitoring] using h2

theorem processToken_peak_mono (s : BotState) (tok : Token) (sym : String)
    (q : Position) (hq : mapFind sym s.positions = some q) :
    ∃ q', mapFind sym (processToken s tok).1.positions = some q' ∧
      q.peakPrice ≤ q'.peakPrice ∧ q'.buyPrice = q.buyPrice ∧
      q'.amount = q.amount := by
  obtain ⟨_, _, hps⟩ := processToken_spec s tok
  rcases hps with h | ⟨p, hfind, h⟩
  · exact ⟨q, by rw [h]; exact hq, le_refl _, rfl, rfl⟩
  · by_cases hsym : sym = tok.symbol
    · subst hsym
      have hqp : q = p := by
        rw [hq] at hfind
        exact Option.some_injective _ hfind
      subst hqp
      refine ⟨{ q with peakPrice :=
          if tok.currentPrice > q.peakPrice then tok.currentPrice else q.peakPrice },
        by rw [h]; exact mapFind_mapSet_self _ _ _, ?_, rfl, rfl⟩
      by_cases hc : tok.currentPrice > q.peakPrice
      · simpa [hc] using le_of_lt hc
      · simp [hc]
    · exact ⟨q, by rw [h, mapFind_mapSet_ne _ _ hsym]; exact hq, le_refl _, rfl, rfl⟩

theorem updateMonitoring_peak_mono (toks : List Token) : ∀ (s : BotState)
    (sym : String) (q : Position), mapFind sym s.positions = some q →
    ∃ q', mapFind sym (updateMonitoring s toks).1.positions = some q' ∧
      q.peakPrice ≤ q'.peakPrice ∧ q'.buyPrice = q.buyPrice ∧
      q'.amount = q.amount := by
  induction toks with
  | nil => exact fun s sym q hq => ⟨q, hq, le_refl _, rfl, rfl⟩
  | cons tok rest ih =>
    intro s sym q hq
    obtain ⟨q1, hq1, hle1, hbuy1, ham1⟩ := processToken_peak_mono s tok sym q hq
    obtain ⟨q2, hq2, hle2, hbuy2, ham2⟩ := ih (processToken s tok).1 sym q1 hq1
    exact ⟨q2, by simpa only [updateMonitoring] using hq2, le_trans hle1 hle2,
      by rw [hbuy2, hbuy1], by rw [ham2, ham1]⟩

theorem applyStep_peakInv (s : BotState) (st : Step) (hI : PeakInv s) :
    PeakInv (applyStep s st) := by
  cases st with
  | buyStep tok r => exact buy_peakInv s tok r hI
  | sellStep tok r => exact sell_peakInv s tok r hI
  | monitorStep toks => exact updateMonitoring_peakInv toks s hI

/-! ### Claim C1: balance conservation -/

/-- C1: every successful `buy` decreases the balance by exactly the
notional spent (`balance × tradeAmountPercent / 100` at call time), every
successful `sell` increases it by exactly the notional received (position
quantity × sell price), and along any sequence of ledger operations with
positive trade prices and a nonnegative minimum-trade configuration, a
state with nonnegative balance and position sizes keeps a nonnegative
balance after every operation (failed operations leave the state
unchanged, and any intermediate state is `runSteps` of a prefix). -/
theorem C1_balance_conservation :
    (∀ (s : BotState) (tok : Token) (r : String),
        (TradingBot.buy s tok r).1.success = true →
        (TradingBot.buy s tok r).2.balance =
          s.balance - s.balance * (s.config.tradeAmountPercent / 100)) ∧
    (∀ (s : BotState) (tok : Token) (r : String) (p : Position),
        mapFind tok.symbol s.positions = some p →
        (TradingBot.sell s tok r).1.success = true ∧
        (TradingBot.sell s tok r).2.balance =
          s.balance + p.amount * tok.currentPrice) ∧
    (∀ (s : BotState) (steps : List Step),
        0 ≤ s.config.minTradeAmount → GoodState s →
        (∀ st ∈ steps, stepPricesPos st) → GoodState (runSteps s steps)) := by
  refine ⟨?_, ?_, ?_⟩
  · intro s tok r h
    by_cases h1 : s.positions.length ≥ s.config.maxPositions
    · simp [TradingBot.buy, h1] at h
    · by_cases h2 : s.balance < s.balance * (s.config.tradeAmountPercent / 100) ∨
          s.balance * (s.config.tradeAmountPercent / 100) < s.config.minTradeAmount
      · simp [TradingBot.buy, h1, h2] at h
      · simp [TradingBot.buy, h1, h2, resetMonitoring_balance]
  · intro s tok r p hp
    constructor
    · simp [TradingBot.sell, hp]
    · simp [TradingBot.sell, hp, resetMonitoring_balance]
  · intro s steps hmin hg hall
    induction steps generalizing s with
    | nil => exact hg
    | cons st rest ih =>
      have h1 := applyStep_goodState s st hmin (hall st (List.mem_cons_self st rest)) hg
      have hcfg := applyStep_config s st
      have hmin' : 0 ≤ (applyStep s st).config.minTradeAmount := by
        rw [hcfg]
        exact hmin
      have hall' : ∀ st' ∈ rest, stepPricesPos st' :=
        fun st' hst' => hall st' (List.mem_cons_of_mem _ hst')
      simpa only [runSteps] using ih (applyStep s st) hmin' h1 hall'

/-- C1 witness: the exact deltas and the nonnegativity invariant at the
concrete scenario states. -/
theorem C1_balance_conservation_witness :
    ((TradingBot.buy scenarioState tok102 "r").1.success = true ∧
     (TradingBot.buy scenarioState tok102 "r").2.balance =
       scenarioState.balance -
         scenarioState.balance * (scenarioState.config.tradeAmountPercent / 100)) ∧
    (mapFind "BTC" heldState.positions = some btcPos ∧
     (TradingBot.sell heldState tokDrop "r").1.success = true ∧
     (TradingBot.sell heldState tokDrop "r").2.balance =
       heldState.balance + btcPos.amount * tokDrop.currentPrice) ∧
    (0 ≤ scenarioState.config.minTradeAmount ∧ GoodState scenarioState ∧
     (∀ st ∈ [Step.buyStep tok102 "r"], stepPricesPos st) ∧
     GoodState (runSteps scenarioState [Step.buyStep tok102 "r"])) := by
  have hsucc : (TradingBot.buy scenarioState tok102 "r").1.success = true := by
    norm_num [TradingBot.buy, scenarioState, tok102, defaultConfig]
  have hmin : (0:ℚ) ≤ scenarioState.config.minTradeAmount := by
    norm_num [scenarioState, defaultConfig]
  have hgood : GoodState scenarioState := by
    constructor
    · norm_num [scenarioState]
    · intro e he
      simp [scenarioState] at he
  have hall : ∀ st ∈ [Step.buyStep tok102 "r"], stepPricesPos st := by
    intro st hst
    simp at hst
    subst hst
    show (0:ℚ) < tok102.currentPrice
    norm_num [tok102]
  refine ⟨⟨hsucc, C1_balance_conservation.1 scenarioState tok102 "r" hsucc⟩,
    ⟨by decide, C1_balance_conservation.2.1 heldState tokDrop "r" btcPos (by decide)⟩,
    ⟨hmin, hgood, hall,
      C1_balance_conservation.2.2 scenarioState [Step.buyStep tok102 "r"]
        hmin hgood hall⟩⟩

/-! ### Claim C4: the peak invariant -/

/-- C4: a successful buy opens the position with `peakPrice` initialized to
the entry price (both equal to the purchase price); across any sequence of
`updateMonitoring` price-update ticks a held position's peak only changes
by being raised (it is non-decreasing, with entry price and quantity
unchanged); and the invariant `peakPrice ≥ entryPrice` for every open
position is preserved by every ledger operation. -/
theorem C4_peak_invariant :
    (∀ (s : BotState) (tok : Token) (r : String),
        (TradingBot.buy s tok r).1.success = true →
        mapFind tok.symbol (TradingBot.buy s tok r).2.positions =
          some { symbol := tok.symbol,
                 amount := s.balance * (s.config.tradeAmountPercent / 100) /
                   tok.currentPrice,
                 buyPrice := tok.currentPrice, peakPrice := tok.currentPrice }) ∧
    (∀ (s : BotState) (toks : List Token) (sym : String) (q : Position),
        mapFind sym s.positions = some q →
        ∃ q', mapFind sym (updateMonitoring s toks).1.positions = some q' ∧
          q.peakPrice ≤ q'.peakPrice ∧ q'.buyPrice = q.buyPrice ∧
          q'.amount = q.amount) ∧
    (∀ (s : BotState) (steps : List Step),
        PeakInv s → PeakInv (runSteps s steps)) := by
  refine ⟨buy_peak_init, fun s toks => updateMonitoring_peak_mono toks s, ?_⟩
  intro s steps hI
  induction steps generalizing s with
  | nil => exact hI
  | cons st rest ih =>
    simpa only [runSteps] using ih (applyStep s st) (applyStep_peakInv s st hI)

/-- C4 witness: peak initialization at the scenario buy, peak monotonicity
of the held position across a tick, and invariant preservation. -/
theorem C4_peak_invariant_witness :
    ((TradingBot.buy scenarioState tok102 "r").1.success = true ∧
     mapFind "BTC" (TradingBot.buy scenarioState tok102 "r").2.positions =
       some { symbol := "BTC",
              amount := scenarioState.balance *
                (scenarioState.config.tradeAmountPercent / 100) /
                tok102.currentPrice,
              buyPrice := tok102.currentPrice, peakPrice := tok102.currentPrice }) ∧
    (mapFind "BTC" heldState.positions = some btcPos ∧
     ∃ q', mapFind "BTC" (updateMonitoring heldState [tokDrop]).1.positions =
         some q' ∧ btcPos.peakPrice ≤ q'.peakPrice ∧
         q'.buyPrice = btcPos.buyPrice ∧ q'.amount = btcPos.amount) ∧
    (PeakInv heldState ∧
     PeakInv (runSteps heldState [Step.monitorStep [tokDrop]])) := by
  have hsucc : (TradingBot.buy scenarioState tok102 "r").1.success = true := by
    norm_num [TradingBot.buy, scenarioState, tok102, defaultConfig]
  have hI : PeakInv heldState := by
    intro e he
    simp [heldState] at he
    rw [he]
    norm_num [btcPos]
  refine ⟨⟨hsucc, C4_peak_invariant.1 scenarioState tok102 "r" hsucc⟩,
    ⟨by decide, C4_peak_invariant.2.1 heldState [tokDrop] "BTC" btcPos (by decide)⟩,
    ⟨hI, C4_peak_invariant.2.2 heldState [Step.monitorStep [tokDrop]] hI⟩⟩

/-! ### Claim C6: the 2%-rise buy scenario -/

/-- C6 counterexample to the original claim: in the scenario (balance
10000, 25% per trade, tracked low 100, current price 102) the executed buy
records a position quantity of `2500 / 102 ≈ 24.51`, not `25` — the
quantity is the notional divided by the execution price `102`, not by the
tracked low `100`. -/
theorem C6_buy_scenario_counterexample :
    ((executeBuy [] scenarioState tok102 "r" (ExchangeOutcome.ok "1")).bot.positions.map
        (fun e => e.2.amount)) = [2500 / 102] ∧ (2500 / 102 : ℚ) ≠ 25 := by
  constructor
  · norm_num [executeBuy, tryAcquire, getFullSymbol, QUOTE_CURRENCY, scenarioState,
      tok102, defaultConfig, TradingBot.buy, resetMonitoring, mapFind, mapSet]
  · norm_num

/-- C6 (amended): in the scenario the tick emits a buy signal and executing
it with a successful exchange call yields notional 2500, resulting balance
7500, and exactly one open position with entry = peak = 102 — but with
quantity `2500 / 102` (the notional over the execution price), not `25`. -/
theorem C6_buy_scenario :
    (updateMonitoring scenarioState [tok102]).2.map Signal.type = [SignalType.buy] ∧
    (executeBuy [] scenarioState tok102 "r" (ExchangeOutcome.ok "1")).result.success
      = true ∧
    ((executeBuy [] scenarioState tok102 "r"
        (ExchangeOutcome.ok "1")).result.trade).map Trade.total = some 2500 ∧
    (executeBuy [] scenarioState tok102 "r" (ExchangeOutcome.ok "1")).bot.balance
      = 7500 ∧
    (executeBuy [] scenarioState tok102 "r" (ExchangeOutcome.ok "1")).bot.positions =
      [("BTC", { symbol := "BTC", amount := 2500 / 102,
                 buyPrice := 102, peakPrice := 102 })] := by
  refine ⟨?_, ?_, ?_, ?_, ?_⟩ <;>
    norm_num [updateMonitoring, processToken, monitorToken, scenarioState, tok102,
      defaultConfig, updateExtrema, flatBranch, mapFind, executeBuy, tryAcquire,
      getFullSymbol, QUOTE_CURRENCY, TradingBot.buy, resetMonitoring, mapSet]

/-! ### Claim C9: price update for an unmonitored symbol -/

/-- C9 counterexample to the original claim: `updatePrice` on a symbol whose
base token is not monitored is not a no-op — the per-symbol price map is
still updated, and `getPrice` reads the new price back. -/
theorem C9_updatePrice_counterexample :
    mapFind (getBaseToken "FOOUSDT") mdEmpty.monitoredTokens = none ∧
    MarketData.getPrice mdEmpty "FOOUSDT" = 0 ∧
    MarketData.getPrice (MarketData.updatePrice mdEmpty "FOOUSDT" 5) "FOOUSDT" = 5 := by
  refine ⟨by decide, by decide, by decide⟩

/-- C9 (amended): `updatePrice` on a symbol whose base token is not in the
monitored set leaves the monitored-token map unchanged, but still records
the price in the price map under the full symbol, and `getPrice` then
returns that price. -/
theorem C9_updatePrice_unmonitored (md : MarketData) (sym : String) (price : ℚ)
    (h : mapFind (getBaseToken sym) md.monitoredTokens = none) :
    (MarketData.updatePrice md sym price).monitoredTokens = md.monitoredTokens ∧
    (MarketData.updatePrice md sym price).prices = mapSet sym price md.prices ∧
    (MarketData.updatePrice md sym price).getPrice sym = price := by
  refine ⟨?_, ?_, ?_⟩ <;>
    simp [MarketData.updatePrice, h, MarketData.getPrice, mapFind_mapSet_self]

/-- C9 witness: the amended claim at the empty tracker and `"FOOUSDT"`. -/
theorem C9_updatePrice_unmonitored_witness :
    mapFind (getBaseToken "FOOUSDT") mdEmpty.monitoredTokens = none ∧
    ((MarketData.updatePrice mdEmpty "FOOUSDT" 5).monitoredTokens =
        mdEmpty.monitoredTokens ∧
      (MarketData.updatePrice mdEmpty "FOOUSDT" 5).prices =
        mapSet "FOOUSDT" 5 mdEmpty.prices ∧
      (MarketData.updatePrice mdEmpty "FOOUSDT" 5).getPrice "FOOUSDT" = 5) :=
  ⟨by decide, C9_updatePrice_unmonitored mdEmpty "FOOUSDT" 5 (by decide)⟩

end ProbeBot
